import Mathlib

/-!
Shallow embedding of the DNS transport in `pkg/upstream/transport/transport.go`
(connection pooling, pipelining, strategy dispatch), together with proofs of
the specification claims about it.

Durations are modelled as `Int` nanoseconds (Go `time.Duration` is an `int64`
nanosecond count).  `uint16`/`uint32` counters are modelled as `Nat` with
explicit `% 2 ^ 16` / `% 2 ^ 32` where the machine width matters.  Go maps
used as bags of connections are modelled as `List Nat` of connection ids (the
list order stands for the map's iteration order, which Go leaves arbitrary;
all theorems quantify over every list, hence over every iteration order)
together with a heap `Nat → state` looked up by id.
-/

namespace Mosdns

/-- Constants of transport.go (durations in nanoseconds). -/
def defaultIdleTimeout : Int := 10 * 1000000000

def defaultReadTimeout : Int := 5 * 1000000000

def defaultDialTimeout : Int := 5 * 1000000000

def defaultMaxConns : Int := 2

def defaultMaxQueryPerConn : Nat := 65535

/-- The configuration fields of `Transport` that the claims depend on.
`IdleTimeout`, `DialTimeout` are `time.Duration` (int64 ns), `MaxConns` is a
Go `int`, `MaxQueryPerConn` is a `uint16` (so callers must keep it < 65536). -/
structure Config where
  DialTimeout : Int
  IdleTimeout : Int
  EnablePipeline : Bool
  MaxConns : Int
  MaxQueryPerConn : Nat
deriving Repr, DecidableEq

/-- `Transport.idleTimeout`: 0 maps to the 10 s default, anything else is
returned as configured (including negative values). -/
def Config.idleTimeout (t : Config) : Int :=
  if t.IdleTimeout = 0 then defaultIdleTimeout else t.IdleTimeout

/-- `Transport.maxConns`: positive configured value, else default 2. -/
def Config.maxConns (t : Config) : Int :=
  if 0 < t.MaxConns then t.MaxConns else defaultMaxConns

/-- `Transport.maxQueryPerConn`: positive configured value, else default 65535. -/
def Config.maxQueryPerConn (t : Config) : Nat :=
  if 0 < t.MaxQueryPerConn then t.MaxQueryPerConn else defaultMaxQueryPerConn

/-- The error values that flow through the transport: the two package-level
errors, context cancellation, and errors produced by the injected
dial/write/read hooks (tagged with an arbitrary code so distinct injected
errors stay distinct). -/
inductive Err where
  | closedTransport
  | eol
  | ctxCanceled
  | dialFailed (code : Nat)
  | writeFailed (code : Nat)
  | readFailed (code : Nat)
deriving Repr, DecidableEq

/-- A DNS message as far as the transport inspects it: the 16-bit identifier
plus an opaque body. -/
structure Msg where
  id : Nat
  body : Nat
deriving Repr, DecidableEq

/-- Strategy chosen by `Transport.ExchangeContext`. -/
inductive Strategy where
  | noConnReuse
  | pipeline
  | reusableConn
deriving Repr, DecidableEq

/-- `Transport.ExchangeContext`, lines 146-160: the closed check followed by
the three-way strategy selection.  Returns the error for a closed transport,
otherwise the strategy that will run.  Nothing else (no dial, no write)
happens before this dispatch. -/
def ExchangeContext_dispatch (t : Config) (closed : Bool) : Except Err Strategy :=
  if closed then .error .closedTransport
  else if t.idleTimeout ≤ 0 then .ok .noConnReuse
  else if t.EnablePipeline then .ok .pipeline
  else .ok .reusableConn

/-- `shadowCopy` — Modelled from the spec: the helper lives outside the
provided sources (`pkg/dnsutils`); spec §4.3 calls it "shadow-copy the
caller's query", i.e. a fresh message value with the same header fields. -/
def shadowCopy (m : Msg) : Msg :=
  { id := m.id, body := m.body }

/-- The ways `pipelineConn.exchange` can unfold after it is entered, as seen
from the three `select` statements in lines 494-529: fail before the dial
finishes (close or context), fail at the write, or wait for the reply and
fail (context/close) or receive it. -/
inductive PCExchOutcome where
  | closedBeforeDial
  | ctxBeforeDial
  | writeFail (e : Err)
  | ctxAfterWrite
  | closedAfterWrite
  | delivered (r : Msg)
deriving Repr, DecidableEq

/-- What a `pipelineConn.exchange` call produces: its return value, the
caller's query message as it stands after the call (the code only ever
writes to a shadow copy), and the message written to the wire, if any. -/
structure PCExchResult where
  result : Except Err Msg
  qAfter : Msg
  wire : Option Msg
deriving Repr

/-- `pipelineConn.exchange`, lines 487-530.  `closeErr` is the connection's
close cause (read on `closeNotify`), `ctxE` the context's error (read on
`ctx.Done()`).  On the delivery path the reply's identifier is overwritten
with the caller's original (`r.Id = q.Id`, line 525); the wire message is the
shadow copy with its identifier overwritten by `qid` (lines 504-505). -/
def pconnExchange (closeErr ctxE : Err) (q : Msg) (qid : Nat)
    (o : PCExchOutcome) : PCExchResult :=
  match o with
  | .closedBeforeDial => { result := .error closeErr, qAfter := q, wire := none }
  | .ctxBeforeDial => { result := .error ctxE, qAfter := q, wire := none }
  | .writeFail e =>
      { result := .error e, qAfter := q, wire := some { shadowCopy q with id := qid } }
  | .ctxAfterWrite =>
      { result := .error ctxE, qAfter := q, wire := some { shadowCopy q with id := qid } }
  | .closedAfterWrite =>
      { result := .error closeErr, qAfter := q, wire := some { shadowCopy q with id := qid } }
  | .delivered r =>
      { result := .ok { r with id := q.id }, qAfter := q,
        wire := some { shadowCopy q with id := qid } }

/-- Per-connection mutable state of a `pipelineConn` (lines 412-428), as far
as the claims observe it: the `accumulateId` QID counter (a `uint32`), the
waitgroup counter, whether the end-of-life closer goroutine has been spawned,
the close latch with its cause, and the length of the QID→slot queue. -/
structure PConnState where
  accumulateId : Nat
  wgCount : Nat
  eolPending : Bool
  closed : Bool
  closeErr : Option Err
  queueLen : Nat
deriving Repr, DecidableEq

/-- `pipelineConn.closeWithErr`, lines 566-580: a `sync.Once` latch that
records the close cause; a second call is a no-op. -/
def PConnState.closeWithErr (c : PConnState) (e : Err) : PConnState :=
  if c.closed then c else { c with closed := true, closeErr := some e }

/-- The `wg.Done()` a finished exchange performs. -/
def PConnState.wgDone (c : PConnState) : PConnState :=
  { c with wgCount := c.wgCount - 1 }

/-- State of a pipeline connection fresh out of `newPipelineConn`
(lines 432-439): counter 0, nothing in flight, not closed. -/
def newPipelineConn : PConnState :=
  { accumulateId := 0, wgCount := 0, eolPending := false, closed := false,
    closeErr := none, queueLen := 0 }

/-- `pipelineConn.acquireQueueId`, lines 470-485.  `atomic.AddUint32` wraps at
`2 ^ 32`; `none` models the `panic("qid overflowed")` when the incremented
counter exceeds `maxQid`; the returned qid is `uint16(id)`.  When the new
counter equals `maxQid` the end-of-life closer goroutine is spawned, recorded
here as `eolPending`. -/
def acquireQueueId (maxQid : Nat) (c : PConnState) : Option (Nat × Bool × PConnState) :=
  let id := (c.accumulateId + 1) % 2 ^ 32
  if maxQid < id then none
  else
    some (id % 2 ^ 16, id == maxQid,
      { c with accumulateId := id, wgCount := c.wgCount + 1,
               eolPending := c.eolPending || (id == maxQid) })

/-- The deferred end-of-life closer spawned by `acquireQueueId` (lines
478-483): it fires only once the waitgroup has drained to zero, and then
closes the connection with the `errEOL` cause. -/
def eolDrainClose (c : PConnState) : PConnState :=
  if c.eolPending = true ∧ c.wgCount = 0 then c.closeWithErr .eol else c

/-- Iterated `acquireQueueId`: the sequence of qids a connection hands out,
used to state that no qid is ever issued twice on one connection.  `none`
when any step panics. -/
def acquireSeq (maxQid : Nat) : Nat → PConnState → Option (List Nat × PConnState)
  | 0, c => some ([], c)
  | n + 1, c =>
    match acquireQueueId maxQid c with
    | none => none
    | some r =>
      match acquireSeq maxQid n r.2.2 with
      | none => none
      | some pr => some (r.1 :: pr.1, pr.2)

/-- State of a `reusableConn` (lines 588-596): the close flag and whether the
idle timer is armed. -/
structure RConnState where
  closed : Bool
  timerArmed : Bool
deriving Repr, DecidableEq

/-- `reusableConn.close`, lines 646-657: idempotent; stops the timer and
closes the stream. -/
def RConnState.close (rc : RConnState) : RConnState :=
  if rc.closed then rc else { closed := true, timerArmed := false }

/-- `reusableConn.startIdle`, lines 629-644: arms (or re-arms) the idle
timer unless the connection is already closed. -/
def RConnState.startIdle (rc : RConnState) : RConnState :=
  if rc.closed then rc else { rc with timerArmed := true }

/-- Pointwise update of a heap of connection states. -/
def updFn {α : Type} (h : Nat → α) (j : Nat) (v : α) : Nat → α :=
  fun i => if i = j then v else h i

/-- The mutex-protected state of a `Transport` (lines 97-101) plus its frozen
configuration.  The bags `pipelineConns`, `reusableConns` and
`idledReusableConns` are Go maps keyed by connection identity; here each
connection is a `Nat` id, each bag is the list of member ids in iteration
order, and the heaps give each id its state.  `nextId` allocates ids for
newly created connections. -/
structure TState where
  cfg : Config
  closed : Bool
  pipelineConns : List Nat
  pconns : Nat → PConnState
  reusableConns : List Nat
  idledReusableConns : List Nat
  rconns : Nat → RConnState
  nextId : Nat

/-- The scan at the top of `Transport.getPipelineConn` (lines 383-390): walk
the bag in iteration order, deleting closed connections as they are met, and
stop at the first live one (the candidate).  Returns the candidate (if any)
and the bag after the deletions. -/
def pruneScan (h : Nat → PConnState) : List Nat → Option Nat × List Nat
  | [] => (none, [])
  | i :: rest => if (h i).closed then pruneScan h rest else (some i, i :: rest)

/-- Result of `Transport.getPipelineConn`: the closed-transport error, the
qid-overflow panic propagated from `acquireQueueId`, or the chosen connection
id with the new-connection mark, the reserved qid, and the updated transport
state. -/
inductive GetPCResult where
  | err (e : Err)
  | overflowPanic
  | ok (connId : Nat) (isNewConn : Bool) (qid : Nat) (s : TState)

/-- `Transport.getPipelineConn`, lines 374-410: fail when closed; prune and
pick a candidate; create (and insert) a fresh connection when there is no
candidate or the candidate has pending work and the bag is below `maxConns`;
reserve a qid on the chosen connection; when the reservation says
end-of-life, drop the connection from the bag without closing it. -/
def getPipelineConn (s : TState) : GetPCResult :=
  if s.closed then .err .closedTransport
  else
    let pr := pruneScan s.pconns s.pipelineConns
    let createNew : Bool :=
      match pr.1 with
      | none => true
      | some i =>
          decide (0 < (s.pconns i).queueLen ∧ (pr.2.length : Int) < s.cfg.maxConns)
    let j : Nat := if createNew then s.nextId else pr.1.getD 0
    let conns : List Nat := if createNew then s.nextId :: pr.2 else pr.2
    let heap : Nat → PConnState :=
      if createNew then updFn s.pconns s.nextId newPipelineConn else s.pconns
    let nid : Nat := if createNew then s.nextId + 1 else s.nextId
    match acquireQueueId s.cfg.maxQueryPerConn (heap j) with
    | none => .overflowPanic
    | some r =>
        .ok j createNew r.1
          { s with pipelineConns := if r.2.1 then conns.erase j else conns,
                   pconns := updFn heap j r.2.2,
                   nextId := nid }

/-- The events `Transport.Close` performs, in program order. -/
inductive CloseEvent where
  | setClosed
  | pconnClose (i : Nat)
  | rconnClose (i : Nat)
deriving Repr, DecidableEq

/-- `Transport.Close`, lines 180-195: under the mutex, set the closed flag,
then close every pipeline connection with the closed-transport cause and
empty that bag, then close every reusable connection and empty both reusable
bags.  Returns the Go `error` result (always `nil`) and the ordered event
trace. -/
def transportClose (s : TState) : TState × Option Err × List CloseEvent :=
  let s1 : TState := { s with closed := true }
  let ph := s1.pipelineConns.foldl
    (fun h i => updFn h i ((h i).closeWithErr .closedTransport)) s1.pconns
  let rh := s1.reusableConns.foldl (fun h i => updFn h i (h i).close) s1.rconns
  ({ s1 with pipelineConns := [], pconns := ph,
             reusableConns := [], idledReusableConns := [], rconns := rh },
   none,
   CloseEvent.setClosed ::
     (s.pipelineConns.map CloseEvent.pconnClose ++
      s.reusableConns.map CloseEvent.rconnClose))

/-- One step of the pipeline-connection loop in
`Transport.CloseIdleConnections` (lines 166-171): a connection with an empty
queue is removed from the bag and closed with the end-of-life cause. -/
def closeIdlePipelineStep (acc : List Nat × (Nat → PConnState)) (i : Nat) :
    List Nat × (Nat → PConnState) :=
  if (acc.2 i).queueLen = 0 then
    (acc.1.erase i, updFn acc.2 i ((acc.2 i).closeWithErr .eol))
  else acc

/-- `Transport.CloseIdleConnections`, lines 162-176: close and remove
pipeline connections with empty queues; close every idled reusable connection
and empty `idledReusableConns`.  `reusableConns` is not touched. -/
def closeIdleConnections (s : TState) : TState :=
  let p := s.pipelineConns.foldl closeIdlePipelineStep (s.pipelineConns, s.pconns)
  let rh := s.idledReusableConns.foldl (fun h i => updFn h i (h i).close) s.rconns
  { s with pipelineConns := p.1, pconns := p.2, rconns := rh,
           idledReusableConns := [] }

/-- `Transport.releaseReusableConn`, lines 351-372: a dead connection is
removed from `reusableConns`; a live one on an open transport is re-armed and
put back into `idledReusableConns`; otherwise (dead, or transport closed) the
connection is closed. -/
def releaseReusableConn (s : TState) (i : Nat) (deadConn : Bool) : TState :=
  let s1 : TState :=
    if deadConn then { s with reusableConns := s.reusableConns.erase i } else s
  if s1.closed = false ∧ deadConn = false then
    { s1 with rconns := updFn s1.rconns i (s1.rconns i).startIdle,
              idledReusableConns := i :: s1.idledReusableConns }
  else
    { s1 with rconns := updFn s1.rconns i (s1.rconns i).close }

/-- A sample reusable-connection state: live, timer armed. -/
def sampleRC : RConnState := { closed := false, timerArmed := true }

/-- A sample transport state with one idle reusable connection (id 5),
used by concrete witnesses. -/
def sampleTS : TState :=
  { cfg := ⟨0, 0, false, 0, 0⟩, closed := false, pipelineConns := [],
    pconns := fun _ => newPipelineConn, reusableConns := [5],
    idledReusableConns := [5], rconns := fun _ => sampleRC, nextId := 9 }

/-- A sample open transport state with an empty pipeline bag and
`MaxQueryPerConn = 1`, so the very first reservation is end-of-life. -/
def sampleTS5 : TState :=
  { cfg := ⟨0, 0, true, 0, 1⟩, closed := false, pipelineConns := [],
    pconns := fun _ => newPipelineConn, reusableConns := [],
    idledReusableConns := [], rconns := fun _ => sampleRC, nextId := 0 }

/-- The state `getPipelineConn` leaves behind on `sampleTS5`: connection 0
was created, reserved qid 1 (end-of-life) and was removed from the bag. -/
def sampleTS5res : TState :=
  { sampleTS5 with
    pipelineConns := [],
    pconns := updFn (updFn sampleTS5.pconns 0 newPipelineConn) 0
      { newPipelineConn with accumulateId := 1, wgCount := 1, eolPending := true },
    nextId := 1 }

/-- A sample open transport state with an empty pipeline bag and default
configuration. -/
def sampleTS6 : TState :=
  { cfg := ⟨0, 0, true, 0, 0⟩, closed := false, pipelineConns := [],
    pconns := fun _ => newPipelineConn, reusableConns := [],
    idledReusableConns := [], rconns := fun _ => sampleRC, nextId := 0 }

/-- The state `getPipelineConn` leaves behind on `sampleTS6`: connection 0
was created, reserved qid 1 and stayed in the bag. -/
def sampleTS6res : TState :=
  { sampleTS6 with
    pipelineConns := [0],
    pconns := updFn (updFn sampleTS6.pconns 0 newPipelineConn) 0
      { newPipelineConn with accumulateId := 1, wgCount := 1 },
    nextId := 1 }

/-- What one iteration of the `exchangeWithPipelineConn` loop observes
(lines 197-220): the context error at the loop head, the outcome of
`getPipelineConn` (its error, or the new-connection mark of the returned
connection), and the outcome of that connection's `exchange`. -/
structure PipelineAttempt where
  ctxErr : Option Err
  getConnErr : Option Err
  isNewConn : Bool
  exch : Except Err Msg
deriving Repr

/-- The loop body of `Transport.exchangeWithPipelineConn` (lines 199-219),
entered with the current attempt number (the Go code increments `attempt`
from 0 before the checks, so the first iteration runs with `attempt = 1`).
Returns the result, the attempt number of the final iteration, and the
number of `getPipelineConn` calls made. -/
def pipelineAux (env : Nat → PipelineAttempt) (attempt : Nat) :
    Except Err Msg × Nat × Nat :=
  match (env attempt).ctxErr with
  | some e => (.error e, attempt, 0)
  | none =>
    match (env attempt).getConnErr with
    | some e => (.error e, attempt, 1)
    | none =>
      match (env attempt).exch with
      | .ok r => (.ok r, attempt, 1)
      | .error e =>
        if h : (env attempt).isNewConn = false ∧ attempt ≤ 3 then
          let r1 := pipelineAux env (attempt + 1)
          (r1.1, r1.2.1, r1.2.2 + 1)
        else (.error e, attempt, 1)
termination_by 4 - attempt
decreasing_by omega

/-- `Transport.exchangeWithPipelineConn`, lines 197-220: run the loop from
attempt 1. -/
def exchangeWithPipelineConn (env : Nat → PipelineAttempt) :
    Except Err Msg × Nat × Nat :=
  pipelineAux env 1

/-- The retry condition of the pipelined loop at attempt `k`: the context was
live, `getPipelineConn` succeeded with a connection from the pool (not
freshly created), its exchange failed, and `k ≤ 3`. -/
def retriedAttempt (env : Nat → PipelineAttempt) (k : Nat) : Prop :=
  (env k).ctxErr = none ∧ (env k).getConnErr = none ∧
    (env k).isNewConn = false ∧ k ≤ 3 ∧ ∃ e, (env k).exch = .error e

/-- Behaviour of one reusable connection as the worker sees it: whether
`stopIdle` succeeds when it is taken from the pool, and the outcome of its
single write-then-read `exchange` (lines 606-613). -/
structure RConnBeh where
  stopIdleOk : Bool
  exch : Except Err Msg
deriving Repr

/-- The pool scan of `Transport.getReusableConnFromPool` (lines 303-311):
every inspected connection leaves `idledReusableConns`; the first whose
`stopIdle` succeeds is returned; ones whose idle timer already fired are
closed and skipped. -/
def getFromPool : List RConnBeh → Option RConnBeh × List RConnBeh
  | [] => (none, [])
  | c :: rest => if c.stopIdleOk then (some c, rest) else getFromPool rest

/-- Events of the reuse-without-pipeline worker, in program order. -/
inductive ReuseEvent where
  | pooledAttempt (ok : Bool)
  | dialed (ok : Bool)
  | freshAttempt (ok : Bool)
  | releasedDead
  | releasedIdle
deriving Repr, DecidableEq

/-- Environment of `exchangeWithReusableConn`: the transport's closed flag,
the outcome a fresh dial would have, the context error as observed at the
head of each worker iteration, and the context error the outer select reads
when the worker publishes nothing. -/
structure ReuseEnv where
  tClosed : Bool
  dial : Except Err RConnBeh
  ctx : Nat → Option Err
  ctxAtSelect : Err

/-- The worker goroutine of `Transport.exchangeWithReusableConn`
(lines 262-284): while the context is live, take a connection from the idle
pool (or dial a fresh one), run one exchange; on success release it idle and
publish the reply; on failure release it dead, then retry when it was a
reused connection and publish the error when it was freshly dialed.  Returns
the published result (none when the loop exited on a cancelled context) and
the event trace. -/
def reuseWorker (env : ReuseEnv) (pool : List RConnBeh) (k : Nat) :
    Option (Except Err Msg) × List ReuseEvent :=
  match env.ctx k with
  | some _ => (none, [])
  | none =>
    if env.tClosed then (some (.error .closedTransport), [])
    else
      match hp : getFromPool pool with
      | (some c, rest) =>
        match c.exch with
        | .ok r => (some (.ok r), [.pooledAttempt true, .releasedIdle])
        | .error _ =>
          let r1 := reuseWorker env rest (k + 1)
          (r1.1, .pooledAttempt false :: .releasedDead :: r1.2)
      | (none, _) =>
        match env.dial with
        | .error e => (some (.error e), [.dialed false])
        | .ok c =>
          if env.tClosed then (some (.error .closedTransport), [.dialed true])
          else
            match c.exch with
            | .ok r => (some (.ok r), [.dialed true, .freshAttempt true, .releasedIdle])
            | .error e =>
                (some (.error e), [.dialed true, .freshAttempt false, .releasedDead])
termination_by pool.length
decreasing_by
  have hlen : ∀ (p : List RConnBeh) (c0 : RConnBeh) (r0 : List RConnBeh),
      getFromPool p = (some c0, r0) → r0.length < p.length := by
    intro p
    induction p with
    | nil =>
      intro c0 r0 h0
      simp [getFromPool] at h0
    | cons d ds ih =>
      intro c0 r0 h0
      unfold getFromPool at h0
      by_cases hs : d.stopIdleOk = true
      · rw [if_pos hs] at h0
        injection h0 with h1 h2
        subst h2
        simp
      · rw [if_neg hs] at h0
        exact Nat.lt_trans (ih c0 r0 h0) (by simp)
  exact hlen pool c rest hp

/-- `Transport.exchangeWithReusableConn`, lines 255-293: the caller selects
between the worker's published result and context cancellation.  A published
result wins the select here; when the worker published nothing only
`ctx.Done()` can fire and the context's error is returned. -/
def exchangeWithReusableConn (env : ReuseEnv) (pool : List RConnBeh) :
    Except Err Msg :=
  match (reuseWorker env pool 0).1 with
  | some res => res
  | none => .error env.ctxAtSelect

/-- Exchange attempts (pooled or fresh) recorded in a worker trace. -/
def attemptsCount (evs : List ReuseEvent) : Nat :=
  (evs.filter fun e =>
    match e with
    | .pooledAttempt _ => true
    | .freshAttempt _ => true
    | _ => false).length

/-- Environment of `Transport.exchangeWithoutConnReuse` (lines 222-253):
the context error at entry (deliberately never read below — the code has no
pre-dial context check), the outcome of `DialFunc(ctx)`, the write and read
outcomes, and the state of the final select between the read result and
`ctx.Done()`. -/
structure NoReuseEnv where
  ctxAtEntry : Option Err
  dial : Except Err Unit
  write : Option Err
  read : Except Err Msg
  ctxDoneErr : Option Err
  ctxWins : Bool

/-- `Transport.exchangeWithoutConnReuse`, lines 222-253: dial with the
caller's context (unconditionally — there is no context check before the
dial), write, then select between the background read and cancellation.  The
second component records that `DialFunc` was invoked. -/
def exchangeWithoutConnReuse (env : NoReuseEnv) : Except Err Msg × Bool :=
  match env.dial with
  | .error e => (.error e, true)
  | .ok _ =>
    match env.write with
    | some e => (.error e, true)
    | none =>
      match env.ctxDoneErr, env.ctxWins with
      | some e, true => (.error e, true)
      | _, _ =>
        match env.read with
        | .ok r => (.ok r, true)
        | .error e => (.error e, true)

/-- A context that is already cancelled when `ExchangeContext` is entered,
paired with a dial that fails with its own distinct error: the environment
of the C9 counterexample. -/
def cancelledNoReuseEnv : NoReuseEnv :=
  { ctxAtEntry := some .ctxCanceled, dial := .error (.dialFailed 7),
    write := none, read := .error (.readFailed 0),
    ctxDoneErr := some .ctxCanceled, ctxWins := true }

/-- Pipelined-loop environment for the C3 witness: attempt 1 fails on a
pooled connection, attempt 2 fails on a freshly created one. -/
def sampleEnvC3 : Nat → PipelineAttempt :=
  fun k =>
    if k = 1 then
      { ctxErr := none, getConnErr := none, isNewConn := false,
        exch := .error (.readFailed 1) }
    else
      { ctxErr := none, getConnErr := none, isNewConn := true,
        exch := .error (.writeFailed 2) }

/-- Reuse-worker environment for the C8 witness: transport open, context
live, fresh dials produce a connection whose exchange fails. -/
def sampleEnvC8 : ReuseEnv :=
  { tClosed := false, dial := .ok { stopIdleOk := true, exch := .error (.writeFailed 3) },
    ctx := fun _ => none, ctxAtSelect := .ctxCanceled }

/-- One pooled connection whose exchange fails, for the C8 witness. -/
def samplePoolC8 : List RConnBeh :=
  [{ stopIdleOk := true, exch := .error (.readFailed 9) }]

/-- Pipelined-loop environment for the C9 witness: context cancelled at the
head of the first iteration. -/
def sampleEnvC9p : Nat → PipelineAttempt :=
  fun _ =>
    { ctxErr := some .ctxCanceled, getConnErr := none, isNewConn := false,
      exch := .error (.readFailed 0) }

/-- Reuse-worker environment for the C9 witness: context cancelled from the
start. -/
def sampleEnvC9r : ReuseEnv :=
  { tClosed := false, dial := .ok { stopIdleOk := true, exch := .ok { id := 1, body := 2 } },
    ctx := fun _ => some .ctxCanceled, ctxAtSelect := .ctxCanceled }

/-- C1: For every call to Transport.ExchangeContext, exactly one of four
mutually exclusive strategies is chosen, checked in order: closed transport
fails with the ClosedTransport error; otherwise an effective idle timeout
≤ 0 (equivalently, a negative configured IdleTimeout, since 0 maps to the
10 s default) selects the no-reuse exchange; otherwise EnablePipeline selects
the pipelined exchange; otherwise the reuse-without-pipeline exchange runs. -/
theorem C1_exchangeContext_strategy_selection (t : Config) (closed : Bool) :
    (t.idleTimeout ≤ 0 ↔ t.IdleTimeout < 0) ∧
    (ExchangeContext_dispatch t closed = .error .closedTransport ↔ closed = true) ∧
    (ExchangeContext_dispatch t closed = .ok .noConnReuse ↔
      closed = false ∧ t.IdleTimeout < 0) ∧
    (ExchangeContext_dispatch t closed = .ok .pipeline ↔
      closed = false ∧ ¬t.IdleTimeout < 0 ∧ t.EnablePipeline = true) ∧
    (ExchangeContext_dispatch t closed = .ok .reusableConn ↔
      closed = false ∧ ¬t.IdleTimeout < 0 ∧ t.EnablePipeline = false) := by
  have hidle : t.idleTimeout ≤ 0 ↔ t.IdleTimeout < 0 := by
    unfold Config.idleTimeout defaultIdleTimeout
    split
    · omega
    · omega
  refine ⟨hidle, ?_, ?_, ?_, ?_⟩
  all_goals
    rcases closed with _ | _
    · by_cases h1 : t.idleTimeout ≤ 0
      · have h2 := hidle.mp h1
        rcases hp : t.EnablePipeline with _ | _ <;>
          simp [ExchangeContext_dispatch, h1, hp, h2]
      · have h2 : ¬t.IdleTimeout < 0 := fun hh => h1 (hidle.mpr hh)
        rcases hp : t.EnablePipeline with _ | _ <;>
          simp [ExchangeContext_dispatch, h1, hp, h2]
    · simp [ExchangeContext_dispatch]

/-- C2: For every pipelined exchange that returns a reply successfully, the
identifier of the returned message equals the identifier of the caller's
original query, the caller's query message is never mutated (in any outcome),
and the identifier rewrite happens only on the shadow copy that goes to the
wire. -/
theorem C2_pipeline_qid_roundtrip (closeErr ctxE : Err) (q : Msg) (qid : Nat)
    (o : PCExchOutcome) (r : Msg) :
    (pconnExchange closeErr ctxE q qid o).qAfter = q ∧
    (pconnExchange closeErr ctxE q qid (.delivered r)).result =
      .ok { id := q.id, body := r.body } ∧
    (pconnExchange closeErr ctxE q qid (.delivered r)).wire =
      some { id := qid, body := q.body } := by
  refine ⟨?_, ?_, ?_⟩
  · cases o <;> rfl
  · rfl
  · rfl

/-- The effective per-connection query cap is positive. -/
theorem Config.maxQueryPerConn_pos (t : Config) : 0 < t.maxQueryPerConn := by
  unfold Config.maxQueryPerConn defaultMaxQueryPerConn
  split <;> omega

/-- The effective per-connection query cap fits in a `uint16`. -/
theorem Config.maxQueryPerConn_le (t : Config) (h : t.MaxQueryPerConn < 65536) :
    t.maxQueryPerConn ≤ 65535 := by
  unfold Config.maxQueryPerConn defaultMaxQueryPerConn
  split <;> omega

/-- A non-end-of-life `acquireQueueId` step: no wraparound, no panic, counter
bumped by one, qid equal to the new counter. -/
theorem acquireQueueId_step (maxQid : Nat) (c : PConnState)
    (hle : maxQid ≤ 65535) (h : c.accumulateId < maxQid) :
    acquireQueueId maxQid c =
      some (c.accumulateId + 1, (c.accumulateId + 1 == maxQid),
        { c with accumulateId := c.accumulateId + 1, wgCount := c.wgCount + 1,
                 eolPending := c.eolPending || (c.accumulateId + 1 == maxQid) }) := by
  have e32 : (2 : Nat) ^ 32 = 4294967296 := by norm_num
  have e16 : (2 : Nat) ^ 16 = 65536 := by norm_num
  have h32 : (c.accumulateId + 1) % 2 ^ 32 = c.accumulateId + 1 :=
    Nat.mod_eq_of_lt (by omega)
  have h16 : (c.accumulateId + 1) % 2 ^ 16 = c.accumulateId + 1 :=
    Nat.mod_eq_of_lt (by omega)
  unfold acquireQueueId
  simp only [h32, h16]
  rw [if_neg (by omega)]

/-- Iterating `acquireQueueId` while staying within the cap yields the
ascending run of qids starting one above the current counter. -/
theorem acquireSeq_eq (maxQid : Nat) (hle : maxQid ≤ 65535) :
    ∀ (n : Nat) (c : PConnState), c.accumulateId + n ≤ maxQid →
      ∃ c2, acquireSeq maxQid n c = some (List.range' (c.accumulateId + 1) n, c2) ∧
        c2.accumulateId = c.accumulateId + n := by
  intro n
  induction n with
  | zero =>
    intro c h
    exact ⟨c, by simp [acquireSeq, List.range'], by omega⟩
  | succ n ih =>
    intro c h
    have hstep := acquireQueueId_step maxQid c hle (by omega)
    obtain ⟨c2, h2, ha⟩ :=
      ih { c with accumulateId := c.accumulateId + 1, wgCount := c.wgCount + 1,
                  eolPending := c.eolPending || (c.accumulateId + 1 == maxQid) }
        (by simp only []; omega)
    dsimp only at h2 ha
    refine ⟨c2, ?_, by omega⟩
    unfold acquireSeq
    rw [hstep]
    dsimp only
    rw [h2]
    rfl

/-- C4: For every pipeline connection, the QID counter stays within
`[0, maxQueryPerConn]`, each successful reservation increments it by exactly
one and hands out the new counter value as the QID (so the QIDs issued by one
connection form a strictly ascending, duplicate-free run), and
`acquireQueueId` panics (modelled as `none`) exactly when the incremented
counter would exceed the cap — i.e. when it is called on a connection whose
counter already reached the cap (an end-of-life connection). -/
theorem C4_qid_counter_invariant (t : Config) (c : PConnState)
    (hM : t.MaxQueryPerConn < 65536) :
    (c.accumulateId < t.maxQueryPerConn →
      ∃ c2, acquireQueueId t.maxQueryPerConn c =
          some (c.accumulateId + 1, (c.accumulateId + 1 == t.maxQueryPerConn), c2) ∧
        c2.accumulateId = c.accumulateId + 1 ∧
        c2.accumulateId ≤ t.maxQueryPerConn ∧
        c2.closed = c.closed ∧ c2.wgCount = c.wgCount + 1) ∧
    (c.accumulateId = t.maxQueryPerConn →
      acquireQueueId t.maxQueryPerConn c = none) ∧
    (∀ n, c.accumulateId + n ≤ t.maxQueryPerConn →
      ∃ qids c2, acquireSeq t.maxQueryPerConn n c = some (qids, c2) ∧
        qids = List.range' (c.accumulateId + 1) n ∧ qids.Nodup) := by
  have hle := t.maxQueryPerConn_le hM
  refine ⟨?_, ?_, ?_⟩
  · intro hlt
    rw [acquireQueueId_step t.maxQueryPerConn c hle hlt]
    refine ⟨_, rfl, rfl, ?_, rfl, rfl⟩
    dsimp only
    omega
  · intro heq
    have e32 : (2 : Nat) ^ 32 = 4294967296 := by norm_num
    have h32 : (c.accumulateId + 1) % 2 ^ 32 = c.accumulateId + 1 :=
      Nat.mod_eq_of_lt (by omega)
    unfold acquireQueueId
    simp only [h32]
    rw [if_pos (by omega)]
  · intro n hn
    obtain ⟨c2, hseq, -⟩ := acquireSeq_eq t.maxQueryPerConn hle n c hn
    exact ⟨_, c2, hseq, rfl, List.nodup_range' _ _⟩

/-- Witness for C4 at a concrete transport (`MaxQueryPerConn = 3`) and a
fresh connection. -/
theorem C4_qid_counter_invariant_witness :
    ∃ c2, acquireQueueId ((Config.mk 0 0 false 0 3).maxQueryPerConn) newPipelineConn =
        some (newPipelineConn.accumulateId + 1,
          (newPipelineConn.accumulateId + 1 == (Config.mk 0 0 false 0 3).maxQueryPerConn),
          c2) ∧
      c2.accumulateId = newPipelineConn.accumulateId + 1 ∧
      c2.accumulateId ≤ (Config.mk 0 0 false 0 3).maxQueryPerConn ∧
      c2.closed = newPipelineConn.closed ∧ c2.wgCount = newPipelineConn.wgCount + 1 :=
  (C4_qid_counter_invariant (Config.mk 0 0 false 0 3) newPipelineConn
    (by decide)).1 (by decide)

/-- Updating a heap at an index reads back the new value there. -/
theorem updFn_same {α : Type} (h : Nat → α) (j : Nat) (v : α) : updFn h j v j = v := by
  unfold updFn
  simp

/-- Updating a heap at an index leaves every other index unchanged. -/
theorem updFn_other {α : Type} (h : Nat → α) (j i : Nat) (v : α) (hij : i ≠ j) :
    updFn h j v i = h i := by
  unfold updFn
  simp [hij]

/-- `reusableConn.close` always leaves the connection closed. -/
theorem RConnState.close_closed (r : RConnState) : r.close.closed = true := by
  unfold RConnState.close
  split <;> simp_all

/-- The close-every-member fold keeps already-closed connections closed. -/
theorem foldClose_preserve (l : List Nat) (h : Nat → RConnState) (i : Nat)
    (hc : (h i).closed = true) :
    ((l.foldl (fun h j => updFn h j (h j).close) h) i).closed = true := by
  induction l generalizing h with
  | nil => exact hc
  | cons j rest ih =>
    apply ih
    dsimp only
    by_cases hij : i = j
    · subst hij
      rw [updFn_same]
      exact RConnState.close_closed _
    · rw [updFn_other _ _ _ _ hij]
      exact hc

/-- The close-every-member fold closes every member of the list. -/
theorem foldClose_mem (i : Nat) :
    ∀ (l : List Nat) (h : Nat → RConnState), i ∈ l →
      ((l.foldl (fun h j => updFn h j (h j).close) h) i).closed = true := by
  intro l
  induction l with
  | nil => intro h hi; cases hi
  | cons j rest ih =>
    intro h hi
    rcases List.mem_cons.mp hi with rfl | hmem
    · refine foldClose_preserve rest _ i ?_
      dsimp only
      rw [updFn_same]
      exact RConnState.close_closed _
    · exact ih _ hmem

/-- C7: Transport.Close always returns a nil error, is idempotent, performs
the closed-flag write before any connection close in its event trace, and
afterwards every ExchangeContext dispatch fails immediately with the
ClosedTransport error (the dispatch happens before any I/O). -/
theorem C7_close_idempotent_terminal (s : TState) :
    (transportClose s).2.1 = none ∧
    (transportClose (transportClose s).1).1 = (transportClose s).1 ∧
    (transportClose s).2.2.head? = some CloseEvent.setClosed ∧
    (∀ e ∈ (transportClose s).2.2.tail, e ≠ CloseEvent.setClosed) ∧
    (transportClose s).1.closed = true ∧
    ExchangeContext_dispatch (transportClose s).1.cfg (transportClose s).1.closed =
      .error Err.closedTransport := by
  refine ⟨rfl, rfl, rfl, ?_, rfl, rfl⟩
  intro e he
  simp only [transportClose, List.tail_cons, List.mem_append, List.mem_map] at he
  rcases he with ⟨i, -, rfl⟩ | ⟨i, -, rfl⟩ <;> simp

/-- Witness for C7 at a concrete transport state with one reusable
connection: the only event after the closed-flag write is that connection's
close. -/
theorem C7_close_idempotent_terminal_witness :
    CloseEvent.rconnClose 5 ≠ CloseEvent.setClosed :=
  (C7_close_idempotent_terminal sampleTS).2.2.2.1 (CloseEvent.rconnClose 5) (by decide)

/-- C10: CloseIdleConnections closes every idle reusable connection and
empties `idledReusableConns`, but leaves the `reusableConns` bag exactly as
it was (closed members included); members leave `reusableConns` only through
Transport.Close (which empties it) or a dead-connection release (which erases
the dead connection), while a live release keeps the bag unchanged. -/
theorem C10_closeIdleConnections_frame (s : TState) (i : Nat) :
    (closeIdleConnections s).reusableConns = s.reusableConns ∧
    (closeIdleConnections s).idledReusableConns = [] ∧
    (i ∈ s.idledReusableConns → ((closeIdleConnections s).rconns i).closed = true) ∧
    (i ∈ s.idledReusableConns → i ∈ s.reusableConns →
      i ∈ (closeIdleConnections s).reusableConns) ∧
    (transportClose s).1.reusableConns = [] ∧
    (releaseReusableConn s i false).reusableConns = s.reusableConns ∧
    (releaseReusableConn s i true).reusableConns = s.reusableConns.erase i := by
  refine ⟨rfl, rfl, ?_, ?_, rfl, ?_, ?_⟩
  · intro hi
    exact foldClose_mem i s.idledReusableConns s.rconns hi
  · intro _ h2
    exact h2
  · unfold releaseReusableConn
    rcases hcl : s.closed with _ | _ <;> simp [hcl]
  · unfold releaseReusableConn
    simp

/-- Witness for C10 at a concrete transport state with one idle reusable
connection. -/
theorem C10_closeIdleConnections_frame_witness :
    ((closeIdleConnections sampleTS).rconns 5).closed = true ∧
    5 ∈ (closeIdleConnections sampleTS).reusableConns :=
  ⟨(C10_closeIdleConnections_frame sampleTS 5).2.2.1 (by decide),
   (C10_closeIdleConnections_frame sampleTS 5).2.2.2.1 (by decide) (by decide)⟩

/-- The effective pipeline-connection cap is at least 1. -/
theorem Config.maxConns_pos (t : Config) : 1 ≤ t.maxConns := by
  unfold Config.maxConns defaultMaxConns
  split <;> omega

/-- When the scan finds no live candidate it has deleted the whole bag. -/
theorem pruneScan_none_nil (h : Nat → PConnState) :
    ∀ l : List Nat, (pruneScan h l).1 = none → (pruneScan h l).2 = [] := by
  intro l
  induction l with
  | nil => intro _; rfl
  | cons i rest ih =>
    intro hn
    by_cases hc : (h i).closed = true
    · unfold pruneScan at hn ⊢
      rw [if_pos hc] at hn ⊢
      exact ih hn
    · unfold pruneScan at hn
      rw [if_neg hc] at hn
      cases hn

/-- The bag the scan leaves behind is a sublist of the original bag. -/
theorem pruneScan_sublist (h : Nat → PConnState) :
    ∀ l : List Nat, (pruneScan h l).2.Sublist l := by
  intro l
  induction l with
  | nil => exact List.Sublist.refl _
  | cons i rest ih =>
    by_cases hc : (h i).closed = true
    · unfold pruneScan
      rw [if_pos hc]
      exact (ih).trans (List.sublist_cons_self i rest)
    · unfold pruneScan
      rw [if_neg hc]

/-- A candidate returned by the scan is live and heads the surviving bag. -/
theorem pruneScan_some (h : Nat → PConnState) :
    ∀ (l : List Nat) (i : Nat), (pruneScan h l).1 = some i →
      (h i).closed = false ∧ (pruneScan h l).2 = i :: ((pruneScan h l).2.tail) := by
  intro l
  induction l with
  | nil => intro i hi; cases hi
  | cons j rest ih =>
    intro i hi
    by_cases hc : (h j).closed = true
    · unfold pruneScan at hi ⊢
      rw [if_pos hc] at hi ⊢
      exact ih i hi
    · unfold pruneScan at hi ⊢
      rw [if_neg hc] at hi ⊢
      cases hi
      exact ⟨Bool.eq_false_iff.mpr hc, rfl⟩

/-- Unpacks a successful `getPipelineConn` call into everything the pool
invariants need: the transport was open, which bag/heap the connection was
chosen from, why a fresh connection was created (if one was), the embedded
`acquireQueueId` result, and the exact output state. -/
theorem getPipelineConn_ok_cases (s : TState) (j : Nat) (isNew : Bool) (qid : Nat)
    (s2 : TState) (hok : getPipelineConn s = .ok j isNew qid s2) :
    ∃ (conns : List Nat) (heap : Nat → PConnState) (r : Nat × Bool × PConnState),
      s.closed = false ∧
      acquireQueueId s.cfg.maxQueryPerConn (heap j) = some r ∧
      qid = r.1 ∧
      (heap j).closed = false ∧
      j ∈ conns ∧
      ((isNew = true ∧ conns = s.nextId :: (pruneScan s.pconns s.pipelineConns).2 ∧
          j = s.nextId ∧ heap = updFn s.pconns s.nextId newPipelineConn ∧
          ((pruneScan s.pconns s.pipelineConns).1 = none ∨
            ∃ i, (pruneScan s.pconns s.pipelineConns).1 = some i ∧
              0 < (s.pconns i).queueLen ∧
              (((pruneScan s.pconns s.pipelineConns).2.length : Int) < s.cfg.maxConns))) ∨
        (isNew = false ∧ conns = (pruneScan s.pconns s.pipelineConns).2 ∧
          (pruneScan s.pconns s.pipelineConns).1 = some j ∧ heap = s.pconns)) ∧
      s2.pipelineConns = (if r.2.1 = true then conns.erase j else conns) ∧
      s2.pconns = updFn heap j r.2.2 ∧
      s2.cfg = s.cfg ∧ s2.closed = s.closed := by
  unfold getPipelineConn at hok
  rcases hcl : s.closed with _ | _
  · rw [hcl] at hok
    simp only [Bool.false_eq_true, if_false] at hok
    rcases hcand : (pruneScan s.pconns s.pipelineConns).1 with _ | i
    · rw [hcand] at hok
      simp only [if_true] at hok
      rcases hacq : acquireQueueId s.cfg.maxQueryPerConn
          (updFn s.pconns s.nextId newPipelineConn s.nextId) with _ | r
      · rw [hacq] at hok
        cases hok
      · rw [hacq] at hok
        rw [GetPCResult.ok.injEq] at hok
        obtain ⟨rfl, rfl, rfl, rfl⟩ := hok
        refine ⟨s.nextId :: (pruneScan s.pconns s.pipelineConns).2,
          updFn s.pconns s.nextId newPipelineConn, r, rfl, hacq, rfl, ?_,
          List.mem_cons_self _ _, Or.inl ⟨rfl, rfl, rfl, rfl, Or.inl rfl⟩,
          rfl, rfl, rfl, rfl⟩
        rw [updFn_same]
        rfl
    · rw [hcand] at hok
      simp only [Option.getD_some] at hok
      rcases hb : (decide (0 < (s.pconns i).queueLen ∧
          (((pruneScan s.pconns s.pipelineConns).2.length : Int) < s.cfg.maxConns)))
          with _ | _
      · have hcond := of_decide_eq_false hb
        simp only [hb, Bool.false_eq_true, if_false] at hok
        rcases hacq : acquireQueueId s.cfg.maxQueryPerConn (s.pconns i)
            with _ | r
        · rw [hacq] at hok
          cases hok
        · rw [hacq] at hok
          rw [GetPCResult.ok.injEq] at hok
          obtain ⟨rfl, rfl, rfl, rfl⟩ := hok
          have hlive := pruneScan_some s.pconns s.pipelineConns i hcand
          refine ⟨(pruneScan s.pconns s.pipelineConns).2, s.pconns, r, rfl, hacq,
            rfl, hlive.1, ?_, Or.inr ⟨rfl, rfl, rfl, rfl⟩, rfl, rfl, rfl, rfl⟩
          rw [hlive.2]
          exact List.mem_cons_self _ _
      · have hcond := of_decide_eq_true hb
        simp only [hb, if_true] at hok
        rcases hacq : acquireQueueId s.cfg.maxQueryPerConn
            (updFn s.pconns s.nextId newPipelineConn s.nextId) with _ | r
        · rw [hacq] at hok
          cases hok
        · rw [hacq] at hok
          rw [GetPCResult.ok.injEq] at hok
          obtain ⟨rfl, rfl, rfl, rfl⟩ := hok
          refine ⟨s.nextId :: (pruneScan s.pconns s.pipelineConns).2,
            updFn s.pconns s.nextId newPipelineConn, r, rfl, hacq, rfl, ?_,
            List.mem_cons_self _ _,
            Or.inl ⟨rfl, rfl, rfl, rfl, Or.inr ⟨i, rfl, hcond⟩⟩,
            rfl, rfl, rfl, rfl⟩
          rw [updFn_same]
          rfl
  · rw [hcl] at hok
    simp only [if_true] at hok
    cases hok

/-- The scan finds no candidate exactly when every bag member is closed. -/
theorem pruneScan_none_iff (h : Nat → PConnState) :
    ∀ l : List Nat, (pruneScan h l).1 = none ↔ ∀ i ∈ l, (h i).closed = true := by
  intro l
  induction l with
  | nil => simp [pruneScan]
  | cons j rest ih =>
    by_cases hc : (h j).closed = true
    · unfold pruneScan
      rw [if_pos hc, ih]
      constructor
      · intro ha i hi
        rcases List.mem_cons.mp hi with rfl | hm
        · exact hc
        · exact ha i hm
      · intro ha i hi
        exact ha i (List.mem_cons_of_mem _ hi)
    · unfold pruneScan
      rw [if_neg hc]
      constructor
      · intro hx
        cases hx
      · intro ha
        exact absurd (ha j (List.mem_cons_self _ _)) hc

/-- What a successful `acquireQueueId` reservation looks like, field by
field. -/
theorem acquireQueueId_some_spec (maxQid : Nat) (c : PConnState)
    (r : Nat × Bool × PConnState) (hacq : acquireQueueId maxQid c = some r) :
    r.2.2.accumulateId = (c.accumulateId + 1) % 2 ^ 32 ∧
    r.2.1 = ((c.accumulateId + 1) % 2 ^ 32 == maxQid) ∧
    r.2.2.closed = c.closed ∧
    r.2.2.eolPending = (c.eolPending || ((c.accumulateId + 1) % 2 ^ 32 == maxQid)) := by
  unfold acquireQueueId at hacq
  dsimp only at hacq
  split at hacq
  · cases hacq
  · injection hacq with hacq
    subst hacq
    exact ⟨rfl, rfl, rfl, rfl⟩

/-- The first component of the fold in `CloseIdleConnections` never grows. -/
theorem closeIdleFold_length :
    ∀ (l : List Nat) (acc : List Nat × (Nat → PConnState)),
      ((l.foldl closeIdlePipelineStep acc).1).length ≤ acc.1.length := by
  intro l
  induction l with
  | nil => intro acc; exact Nat.le_refl _
  | cons i rest ih =>
    intro acc
    refine Nat.le_trans (ih _) ?_
    unfold closeIdlePipelineStep
    split
    · exact (List.erase_sublist _ _).length_le
    · exact Nat.le_refl _

/-- C5: When a QID reservation comes back with the end-of-life flag (the new
counter equals `maxQueryPerConn`), `getPipelineConn` removes the connection
from `pipelineConns` at once but does not close it (its `eolPending` closer
is armed instead), and the end-of-life closer closes the connection with the
EndOfLife cause only once the in-flight waitgroup has drained to zero. -/
theorem C5_eol_removed_without_close (s : TState) (j : Nat) (isNew : Bool)
    (qid : Nat) (s2 : TState)
    (hnd : s.pipelineConns.Nodup)
    (hfresh : ∀ i ∈ s.pipelineConns, i < s.nextId)
    (hok : getPipelineConn s = .ok j isNew qid s2)
    (heol : (s2.pconns j).accumulateId = s.cfg.maxQueryPerConn) :
    j ∉ s2.pipelineConns ∧
    (s2.pconns j).closed = false ∧
    (s2.pconns j).eolPending = true ∧
    (∀ c : PConnState, c.wgCount ≠ 0 → eolDrainClose c = c) ∧
    (∀ c : PConnState, c.eolPending = true → c.wgCount = 0 → c.closed = false →
      (eolDrainClose c).closed = true ∧ (eolDrainClose c).closeErr = some Err.eol) := by
  obtain ⟨conns, heap, r, -, hacq, -, hclosed, hjmem, hcase, hpc, hheap, -, -⟩ :=
    getPipelineConn_ok_cases s j isNew qid s2 hok
  obtain ⟨hacc, heolflag, hcl2, hpend⟩ := acquireQueueId_some_spec _ _ _ hacq
  have hpj : s2.pconns j = r.2.2 := by
    rw [hheap, updFn_same]
  have hidval : ((heap j).accumulateId + 1) % 2 ^ 32 = s.cfg.maxQueryPerConn := by
    rw [← hacc, ← hpj, heol]
  have heoltrue : r.2.1 = true := by
    rw [heolflag, hidval]
    exact beq_self_eq_true _
  have hprNodup : (pruneScan s.pconns s.pipelineConns).2.Nodup :=
    (pruneScan_sublist s.pconns s.pipelineConns).nodup hnd
  have hconnsNodup : conns.Nodup := by
    rcases hcase with ⟨-, hconns, -, -, -⟩ | ⟨-, hconns, -, -⟩
    · rw [hconns]
      refine List.nodup_cons.mpr ⟨?_, hprNodup⟩
      intro hmem
      have hlt := hfresh s.nextId
        ((pruneScan_sublist s.pconns s.pipelineConns).subset hmem)
      omega
    · rw [hconns]
      exact hprNodup
  refine ⟨?_, ?_, ?_, ?_, ?_⟩
  · rw [hpc, if_pos heoltrue]
    intro hmem
    have := (hconnsNodup.mem_erase_iff).mp hmem
    exact this.1 rfl
  · rw [hpj, hcl2]
    exact hclosed
  · rw [hpj, hpend, hidval]
    simp
  · intro c hw
    unfold eolDrainClose
    rw [if_neg]
    intro hx
    exact hw hx.2
  · intro c hp hw hc
    unfold eolDrainClose PConnState.closeWithErr
    rw [if_pos ⟨hp, hw⟩, if_neg]
    · exact ⟨rfl, rfl⟩
    · rw [hc]
      exact Bool.false_ne_true

/-- Witness for C5: on `sampleTS5` (cap 1) the freshly created connection 0
reserves the end-of-life qid 1, leaves the bag unclosed. -/
theorem C5_eol_removed_without_close_witness :
    0 ∉ sampleTS5res.pipelineConns ∧
    (sampleTS5res.pconns 0).closed = false ∧
    (sampleTS5res.pconns 0).eolPending = true :=
  have h := C5_eol_removed_without_close sampleTS5 0 true 1 sampleTS5res
    (by decide) (by decide) rfl rfl
  ⟨h.1, h.2.1, h.2.2.1⟩

/-- C6: The pipeline bag never exceeds the effective `maxConns`: a successful
`getPipelineConn` keeps the bound, and it creates a fresh connection only
when every bag member is closed (no live candidate survives pruning) or when
the candidate has pending work and the pruned bag is strictly below
`maxConns`; the only other operations touching the bag,
`CloseIdleConnections` and `Close`, can only shrink it. -/
theorem C6_pipelineConns_bounded (s : TState)
    (hLen : (s.pipelineConns.length : Int) ≤ s.cfg.maxConns) :
    (∀ j isNew qid s2, getPipelineConn s = .ok j isNew qid s2 →
      ((s2.pipelineConns.length : Int) ≤ s.cfg.maxConns ∧ s2.cfg = s.cfg)) ∧
    (∀ j qid s2, getPipelineConn s = .ok j true qid s2 →
      ((∀ i ∈ s.pipelineConns, (s.pconns i).closed = true) ∨
        ∃ i, (pruneScan s.pconns s.pipelineConns).1 = some i ∧
          0 < (s.pconns i).queueLen ∧
          (((pruneScan s.pconns s.pipelineConns).2.length : Int) < s.cfg.maxConns))) ∧
    ((closeIdleConnections s).pipelineConns.length ≤ s.pipelineConns.length) ∧
    (transportClose s).1.pipelineConns = [] := by
  refine ⟨?_, ?_, ?_, rfl⟩
  · intro j isNew qid s2 hok
    obtain ⟨conns, heap, r, -, -, -, -, -, hcase, hpc, -, hcfg, -⟩ :=
      getPipelineConn_ok_cases s j isNew qid s2 hok
    refine ⟨?_, hcfg⟩
    have hshrink : s2.pipelineConns.length ≤ conns.length := by
      rw [hpc]
      split
      · exact (List.erase_sublist _ _).length_le
      · exact Nat.le_refl _
    have hcl : (conns.length : Int) ≤ s.cfg.maxConns := by
      rcases hcase with ⟨-, hconns, -, -, hwhy⟩ | ⟨-, hconns, -, -⟩
      · rcases hwhy with hnone | ⟨i, -, -, hlt⟩
        · have hnil := pruneScan_none_nil s.pconns s.pipelineConns hnone
          rw [hconns, hnil]
          have := s.cfg.maxConns_pos
          simp
          omega
        · rw [hconns]
          simp only [List.length_cons]
          omega
      · rw [hconns]
        have := (pruneScan_sublist s.pconns s.pipelineConns).length_le
        omega
    omega
  · intro j qid s2 hok
    obtain ⟨conns, heap, r, -, -, -, -, -, hcase, -, -, -, -⟩ :=
      getPipelineConn_ok_cases s j true qid s2 hok
    rcases hcase with ⟨-, -, -, -, hwhy⟩ | ⟨hfalse, -, -, -⟩
    · rcases hwhy with hnone | hsome
      · exact Or.inl ((pruneScan_none_iff s.pconns s.pipelineConns).mp hnone)
      · exact Or.inr hsome
    · cases hfalse
  · exact closeIdleFold_length s.pipelineConns (s.pipelineConns, s.pconns)

/-- Witness for C6 on `sampleTS6`: the bag after the call has one connection,
within the default cap of 2. -/
theorem C6_pipelineConns_bounded_witness :
    ((sampleTS6res.pipelineConns.length : Int) ≤ sampleTS6.cfg.maxConns) ∧
    sampleTS6res.cfg = sampleTS6.cfg :=
  (C6_pipelineConns_bounded sampleTS6 (by decide)).1 0 true 1 sampleTS6res rfl

/-- Full characterisation of the pipelined retry loop from any starting
attempt `a` with `a + m = 4`: the loop ends by attempt 4, every non-final
attempt was a retry situation (pool connection, failed exchange, at most 3
retries so far), and a failing final attempt surfaces its error and was
either on a fresh connection or attempt 4. -/
theorem pipelineAux_spec (env : Nat → PipelineAttempt) :
    ∀ (m a : Nat), a + m = 4 → 1 ≤ a →
      a ≤ (pipelineAux env a).2.1 ∧ (pipelineAux env a).2.1 ≤ 4 ∧
      (∀ k, a ≤ k → k < (pipelineAux env a).2.1 → retriedAttempt env k) ∧
      (∀ e, (env (pipelineAux env a).2.1).ctxErr = none →
        (env (pipelineAux env a).2.1).getConnErr = none →
        (env (pipelineAux env a).2.1).exch = .error e →
        (pipelineAux env a).1 = .error e ∧
          ((env (pipelineAux env a).2.1).isNewConn = true ∨
            (pipelineAux env a).2.1 = 4)) := by
  intro m
  induction m with
  | zero =>
    intro a hma ha
    have ha4 : a = 4 := by omega
    subst ha4
    rcases hc : (env 4).ctxErr with _ | e1
    · rcases hg : (env 4).getConnErr with _ | e2
      · rcases hx : (env 4).exch with e3 | r3
        · have hval : pipelineAux env 4 = (.error e3, 4, 1) := by
            rw [pipelineAux.eq_def]
            simp only [hc, hg, hx]
            rw [dif_neg]
            intro hh
            omega
          rw [hval]
          dsimp only
          refine ⟨le_refl _, le_refl _, ?_, ?_⟩
          · intro k h1 h2
            omega
          · intro e _ _ hcx
            rw [hx] at hcx
            injection hcx with he
            subst he
            exact ⟨rfl, Or.inr rfl⟩
        · have hval : pipelineAux env 4 = (.ok r3, 4, 1) := by
            rw [pipelineAux.eq_def]
            simp only [hc, hg, hx]
          rw [hval]
          dsimp only
          refine ⟨le_refl _, le_refl _, ?_, ?_⟩
          · intro k h1 h2
            omega
          · intro e _ _ hcx
            rw [hx] at hcx
            cases hcx
      · have hval : pipelineAux env 4 = (.error e2, 4, 1) := by
          rw [pipelineAux.eq_def]
          simp only [hc, hg]
        rw [hval]
        dsimp only
        refine ⟨le_refl _, le_refl _, ?_, ?_⟩
        · intro k h1 h2
          omega
        · intro e _ hcg _
          rw [hg] at hcg
          cases hcg
    · have hval : pipelineAux env 4 = (.error e1, 4, 0) := by
        rw [pipelineAux.eq_def]
        simp only [hc]
      rw [hval]
      dsimp only
      refine ⟨le_refl _, le_refl _, ?_, ?_⟩
      · intro k h1 h2
        omega
      · intro e hce _ _
        rw [hc] at hce
        cases hce
  | succ m ih =>
    intro a hma ha
    have ha3 : a ≤ 3 := by omega
    rcases hc : (env a).ctxErr with _ | e1
    · rcases hg : (env a).getConnErr with _ | e2
      · rcases hx : (env a).exch with e3 | r3
        · by_cases hb : (env a).isNewConn = false
          · have hval : pipelineAux env a =
                ((pipelineAux env (a + 1)).1, (pipelineAux env (a + 1)).2.1,
                  (pipelineAux env (a + 1)).2.2 + 1) := by
              rw [pipelineAux.eq_def]
              simp only [hc, hg, hx]
              rw [dif_pos ⟨hb, ha3⟩]
            have hrec := ih (a + 1) (by omega) (by omega)
            rw [hval]
            dsimp only
            refine ⟨?_, ?_, ?_, ?_⟩
            · have := hrec.1
              omega
            · exact hrec.2.1
            · intro k h1 h2
              rcases Nat.eq_or_lt_of_le h1 with rfl | h1x
              · exact ⟨hc, hg, hb, ha3, ⟨e3, hx⟩⟩
              · exact hrec.2.2.1 k (by omega) h2
            · exact hrec.2.2.2
          · have hbt : (env a).isNewConn = true := by
              rcases hB : (env a).isNewConn with _ | _
              · exact absurd hB hb
              · rfl
            have hval : pipelineAux env a = (.error e3, a, 1) := by
              rw [pipelineAux.eq_def]
              simp only [hc, hg, hx]
              rw [dif_neg]
              intro hh
              exact hb hh.1
            rw [hval]
            dsimp only
            refine ⟨le_refl _, by omega, ?_, ?_⟩
            · intro k h1 h2
              omega
            · intro e _ _ hcx
              rw [hx] at hcx
              injection hcx with he
              subst he
              exact ⟨rfl, Or.inl hbt⟩
        · have hval : pipelineAux env a = (.ok r3, a, 1) := by
            rw [pipelineAux.eq_def]
            simp only [hc, hg, hx]
          rw [hval]
          dsimp only
          refine ⟨le_refl _, by omega, ?_, ?_⟩
          · intro k h1 h2
            omega
          · intro e _ _ hcx
            rw [hx] at hcx
            cases hcx
      · have hval : pipelineAux env a = (.error e2, a, 1) := by
          rw [pipelineAux.eq_def]
          simp only [hc, hg]
        rw [hval]
        dsimp only
        refine ⟨le_refl _, by omega, ?_, ?_⟩
        · intro k h1 h2
          omega
        · intro e _ hcg _
          rw [hg] at hcg
          cases hcg
    · have hval : pipelineAux env a = (.error e1, a, 0) := by
        rw [pipelineAux.eq_def]
        simp only [hc]
      rw [hval]
      dsimp only
      refine ⟨le_refl _, by omega, ?_, ?_⟩
      · intro k h1 h2
        omega
      · intro e hce _ _
        rw [hc] at hce
        cases hce

/-- C3: The pipelined exchange loop makes at most 4 attempts; after a failed
attempt it retries exactly when the connection came from the pool (not
freshly created that attempt) and fewer than 3 retries have happened
(attempt number ≤ 3); a failure on a freshly created connection is surfaced
immediately. -/
theorem C3_pipeline_retry_policy (env : Nat → PipelineAttempt) :
    1 ≤ (exchangeWithPipelineConn env).2.1 ∧
    (exchangeWithPipelineConn env).2.1 ≤ 4 ∧
    (∀ k, 1 ≤ k → k < (exchangeWithPipelineConn env).2.1 → retriedAttempt env k) ∧
    (∀ e, (env (exchangeWithPipelineConn env).2.1).ctxErr = none →
      (env (exchangeWithPipelineConn env).2.1).getConnErr = none →
      (env (exchangeWithPipelineConn env).2.1).exch = .error e →
      (exchangeWithPipelineConn env).1 = .error e ∧
        ((env (exchangeWithPipelineConn env).2.1).isNewConn = true ∨
          (exchangeWithPipelineConn env).2.1 = 4)) := by
  unfold exchangeWithPipelineConn
  exact pipelineAux_spec env 3 1 (by omega) (by omega)

/-- Witness for C3: attempt 1 fails on a pooled connection and is retried;
attempt 2 fails on a fresh connection and its error is surfaced. -/
theorem C3_pipeline_retry_policy_witness :
    retriedAttempt sampleEnvC3 1 ∧
    (exchangeWithPipelineConn sampleEnvC3).1 = .error (.writeFailed 2) ∧
    ((sampleEnvC3 (exchangeWithPipelineConn sampleEnvC3).2.1).isNewConn = true ∨
      (exchangeWithPipelineConn sampleEnvC3).2.1 = 4) := by
  have h := C3_pipeline_retry_policy sampleEnvC3
  have heval : exchangeWithPipelineConn sampleEnvC3 = (.error (.writeFailed 2), 2, 2) := by
    unfold exchangeWithPipelineConn
    rw [pipelineAux.eq_def]
    simp [sampleEnvC3]
    rw [pipelineAux.eq_def]
    simp [sampleEnvC3]
  have hfin := h.2.2.2 (.writeFailed 2) (by rw [heval]; rfl) (by rw [heval]; rfl)
    (by rw [heval]; rfl)
  exact ⟨h.2.2.1 1 (le_refl 1) (by rw [heval]; decide), hfin.1, hfin.2⟩

/-- A pool fetch that returns a connection strictly shrinks the pool. -/
theorem getFromPool_some_length :
    ∀ (p : List RConnBeh) (c : RConnBeh) (r : List RConnBeh),
      getFromPool p = (some c, r) → r.length < p.length := by
  intro p
  induction p with
  | nil =>
    intro c r h
    simp [getFromPool] at h
  | cons d ds ih =>
    intro c r h
    unfold getFromPool at h
    by_cases hs : d.stopIdleOk = true
    · rw [if_pos hs] at h
      injection h with h1 h2
      subst h2
      simp
    · rw [if_neg hs] at h
      exact Nat.lt_trans (ih c r h) (by simp)

/-- An exchange attempt at the head of a worker trace counts. -/
theorem attemptsCount_cons_pooled (b : Bool) (l : List ReuseEvent) :
    attemptsCount (.pooledAttempt b :: l) = attemptsCount l + 1 := by
  simp [attemptsCount, List.filter]

/-- A dead release at the head of a worker trace does not count. -/
theorem attemptsCount_cons_dead (l : List ReuseEvent) :
    attemptsCount (.releasedDead :: l) = attemptsCount l := by
  simp [attemptsCount, List.filter]

/-- The reuse worker performs at most one exchange attempt per pooled
connection plus one fresh attempt: it cannot retry forever. -/
theorem reuseWorker_attempts_le (env : ReuseEnv) :
    ∀ (n : Nat) (pool : List RConnBeh) (k : Nat), pool.length ≤ n →
      attemptsCount (reuseWorker env pool k).2 ≤ pool.length + 1 := by
  intro n
  induction n with
  | zero =>
    intro pool k hn
    have hpool : pool = [] := List.length_eq_zero.mp (Nat.le_zero.mp hn)
    subst hpool
    rw [reuseWorker.eq_def]
    rcases hc : env.ctx k with _ | e0
    · by_cases ht : env.tClosed = true
      · simp [hc, ht, attemptsCount]
      · rcases hd : env.dial with e1 | c1
        · simp [hc, ht, hd, attemptsCount, getFromPool]
        · rcases hx : c1.exch with e2 | r2 <;>
            simp [hc, ht, hd, hx, attemptsCount, getFromPool]
    · simp [hc, attemptsCount]
  | succ n ih =>
    intro pool k hn
    rw [reuseWorker.eq_def]
    rcases hc : env.ctx k with _ | e0
    · by_cases ht : env.tClosed = true
      · simp [hc, ht, attemptsCount]
      · rcases hp : getFromPool pool with ⟨copt, rest⟩
        rcases copt with _ | c1
        · rcases hd : env.dial with e1 | c1
          · simp [hc, ht, hp, hd, attemptsCount]
          · rcases hx : c1.exch with e2 | r2 <;>
              simp [hc, ht, hp, hd, hx, attemptsCount]
        · rcases hx : c1.exch with e2 | r2
          · have hlt := getFromPool_some_length pool c1 rest hp
            have hrec := ih rest (k + 1) (by omega)
            simp only [hc, ht, hp, hx, Bool.false_eq_true, if_false]
            rw [attemptsCount_cons_pooled, attemptsCount_cons_dead]
            omega
          · simp [hc, ht, hp, hx, attemptsCount]
    · simp [hc, attemptsCount]

/-- C8: In the reuse-without-pipeline worker, a failed exchange releases the
connection as dead; when the connection came reused from the pool the worker
continues with the remaining pool, and when it was freshly dialed the error
is published immediately with no further attempt; the total number of
exchange attempts is bounded by the pool size plus one, so fresh-dial
failures cannot be retried forever. -/
theorem C8_reuse_retry_policy (env : ReuseEnv) (pool : List RConnBeh) (k : Nat)
    (c : RConnBeh) (rest : List RConnBeh) (e : Err) :
    attemptsCount (reuseWorker env pool k).2 ≤ pool.length + 1 ∧
    (env.ctx k = none → env.tClosed = false → getFromPool pool = (some c, rest) →
      c.exch = .error e →
      reuseWorker env pool k =
        ((reuseWorker env rest (k + 1)).1,
          .pooledAttempt false :: .releasedDead :: (reuseWorker env rest (k + 1)).2)) ∧
    (env.ctx k = none → env.tClosed = false → getFromPool pool = (none, rest) →
      env.dial = .ok c → c.exch = .error e →
      reuseWorker env pool k =
        (some (.error e), [.dialed true, .freshAttempt false, .releasedDead])) := by
  refine ⟨reuseWorker_attempts_le env pool.length pool k (le_refl _), ?_, ?_⟩
  · intro h1 h2 h3 h4
    rw [reuseWorker.eq_def]
    simp only [h1, h2, Bool.false_eq_true, if_false]
    split
    · rename_i c2 rest2 heq
      rw [h3] at heq
      injection heq with ha hb
      injection ha with ha2
      subst ha2
      subst hb
      simp [h4]
    · rename_i snd heq
      rw [h3] at heq
      injection heq with ha hb
      cases ha
  · intro h1 h2 h3 h4 h5
    rw [reuseWorker.eq_def]
    simp only [h1, h2, Bool.false_eq_true, if_false]
    split
    · rename_i c2 rest2 heq
      rw [h3] at heq
      injection heq with ha hb
      cases ha
    · rename_i snd heq
      simp [h4, h2, h5]

/-- Witness for C8: one pooled connection whose exchange fails is released
dead and the worker retries with the emptied pool. -/
theorem C8_reuse_retry_policy_witness :
    attemptsCount (reuseWorker sampleEnvC8 samplePoolC8 0).2 ≤ samplePoolC8.length + 1 ∧
    reuseWorker sampleEnvC8 samplePoolC8 0 =
      ((reuseWorker sampleEnvC8 [] 1).1,
        .pooledAttempt false :: .releasedDead :: (reuseWorker sampleEnvC8 [] 1).2) :=
  have h := C8_reuse_retry_policy sampleEnvC8 samplePoolC8 0
    { stopIdleOk := true, exch := .error (.readFailed 9) } [] (.readFailed 9)
  ⟨h.1, h.2.1 rfl rfl rfl rfl⟩

/-- C9 counterexample: with a context already cancelled at entry, the
no-reuse strategy still invokes DialFunc (second component `true`) and
returns the dial's own error rather than the context's error — refuting the
claim that DialFunc is never invoked in all three strategy modes. -/
theorem C9_ctx_cancelled_counterexample :
    cancelledNoReuseEnv.ctxAtEntry = some Err.ctxCanceled ∧
    (exchangeWithoutConnReuse cancelledNoReuseEnv).2 = true ∧
    (exchangeWithoutConnReuse cancelledNoReuseEnv).1 = .error (.dialFailed 7) ∧
    (exchangeWithoutConnReuse cancelledNoReuseEnv).1 ≠ .error Err.ctxCanceled := by
  refine ⟨rfl, rfl, rfl, ?_⟩
  intro h
  have h2 : Err.dialFailed 7 = Err.ctxCanceled := by injection h
  cases h2

/-- C9 amended: with a context already cancelled on entry, the pipelined
strategy returns the context error after 0 `getPipelineConn` calls (hence no
dial), and the reuse-without-pipeline strategy's worker exits without any
event (no dial) so the caller returns the context's error; the no-reuse
strategy, however, always invokes DialFunc (with the cancelled context). -/
theorem C9_amended_cancelled_entry (env : Nat → PipelineAttempt)
    (renv : ReuseEnv) (pool : List RConnBeh) (nenv : NoReuseEnv) (e : Err) :
    ((env 1).ctxErr = some e → exchangeWithPipelineConn env = (.error e, 1, 0)) ∧
    (renv.ctx 0 = some e → reuseWorker renv pool 0 = (none, []) ∧
      exchangeWithReusableConn renv pool = .error renv.ctxAtSelect) ∧
    (exchangeWithoutConnReuse nenv).2 = true := by
  refine ⟨?_, ?_, ?_⟩
  · intro h
    unfold exchangeWithPipelineConn
    rw [pipelineAux.eq_def]
    simp [h]
  · intro h
    have hw : reuseWorker renv pool 0 = (none, []) := by
      rw [reuseWorker.eq_def]
      simp [h]
    refine ⟨hw, ?_⟩
    unfold exchangeWithReusableConn
    rw [hw]
  · unfold exchangeWithoutConnReuse
    rcases hd : nenv.dial with e1 | u
    · rfl
    · rcases hw : nenv.write with _ | e2
      · rcases hcd : nenv.ctxDoneErr with _ | e3 <;>
          rcases hcw : nenv.ctxWins with _ | _ <;>
          rcases hr : nenv.read with e4 | r4 <;> rfl
      · rfl

/-- Witness for the amended C9 at concrete cancelled-at-entry environments
for all three strategies. -/
theorem C9_amended_cancelled_entry_witness :
    exchangeWithPipelineConn sampleEnvC9p = (.error .ctxCanceled, 1, 0) ∧
    exchangeWithReusableConn sampleEnvC9r [] = .error .ctxCanceled ∧
    (exchangeWithoutConnReuse cancelledNoReuseEnv).2 = true := by
  have h := C9_amended_cancelled_entry sampleEnvC9p sampleEnvC9r []
    cancelledNoReuseEnv .ctxCanceled
  exact ⟨h.1 rfl, (h.2.1 rfl).2, h.2.2⟩

end Mosdns
